import Mathlib

/-
Verification of the MQSMaster backfill pipeline.

This file shallowly embeds the Python sources
  src/orchestrator/marketData/fmpMarketData.py
  src/orchestrator/backfill/backfill.py
  src/orchestrator/backfill/concurrent_backfill.py
  src/orchestrator/backfill/update/crypto_tickers.py
as executable Lean definitions (time as Int seconds, external effects as
explicit oracles and traces) and proves or refutes the specified properties.
-/

namespace MQS

/- ## Rate limiter: FMPMarketData._check_rate_limit (fmpMarketData.py lines 74-109)

Timestamps are modelled as Int seconds.  The instance attributes set in
FMPMarketData.__init__ become the constants below; `request_timestamps`
starts empty for every freshly constructed instance. -/

def MAX_REQUESTS_PER_MIN : Nat := 3000

def LOCK_WINDOW_SECONDS : Int := 60

/-- Embeds the purge at lines 85-89: keep only timestamps `t` with
`current_time - t < LOCK_WINDOW_SECONDS`. -/
def purgeOld (window now : Int) (ts : List Int) : List Int :=
  ts.filter (fun t => now - t < window)

/-- Outcome of one iteration of the `while True` loop body of
`_check_rate_limit`, executed under the mutex. -/
inductive CheckStep where
  | admitted (ts' : List Int)
  | blocked (wait : Int)
  deriving DecidableEq

/-- Embeds one iteration of `_check_rate_limit` (lines 80-99): purge, then
either append `current_time` and return, or compute
`wait_time = LOCK_WINDOW_SECONDS - (current_time - request_timestamps[0])`. -/
def checkRateLimitStep (maxReq : Nat) (window now : Int) (ts : List Int) : CheckStep :=
  let purged := purgeOld window now ts
  if purged.length < maxReq then CheckStep.admitted (purged ++ [now])
  else CheckStep.blocked (window - (now - purged.headI))

/-- Embeds the full `while True` retry loop of `_check_rate_limit`: `nows` is
the stream of values `time.time()` takes at the successive iterations (the
sleep between iterations advances it).  Returns the state after the admitting
append together with the admission instant, or `none` if the instant stream
is exhausted before admission. -/
def acquireLoop (maxReq : Nat) (window : Int) : List Int → List Int → Option (List Int × Int)
  | [], _ => none
  | now :: rest, ts =>
    match checkRateLimitStep maxReq window now ts with
    | CheckStep.admitted ts' => some (ts', now)
    | CheckStep.blocked _ => acquireLoop maxReq window rest ts

theorem purgeOld_mem {window now : Int} {ts : List Int} {t : Int}
    (h : t ∈ purgeOld window now ts) : now - t < window := by
  have := List.of_mem_filter h
  simpa using this

theorem purgeOld_self_of_within {window now : Int} {ts : List Int}
    (h : ∀ t ∈ ts, now - t < window) : purgeOld window now ts = ts := by
  unfold purgeOld
  exact List.filter_eq_self.mpr (fun a ha => by simpa using h a ha)

theorem acquireLoop_bound (maxReq : Nat) (window : Int) (hw : 0 < window)
    (nows ts ts' : List Int) (tAdm : Int)
    (h : acquireLoop maxReq window nows ts = some (ts', tAdm)) :
    (purgeOld window tAdm ts').length ≤ maxReq ∧ tAdm ∈ ts' := by
  induction nows generalizing ts with
  | nil => simp [acquireLoop] at h
  | cons now rest ih =>
    unfold acquireLoop at h
    unfold checkRateLimitStep at h
    by_cases hlt : (purgeOld window now ts).length < maxReq
    · simp only [hlt, if_pos] at h
      obtain ⟨h1, h2⟩ := Prod.mk.injEq .. ▸ Option.some.injEq .. ▸ h
      subst h2
      have hall : ∀ t ∈ purgeOld window now ts ++ [now], now - t < window := by
        intro t ht
        rcases List.mem_append.mp ht with hmem | hmem
        · exact purgeOld_mem hmem
        · have : t = now := by simpa using hmem
          subst this; simpa using hw
      constructor
      · rw [← h1, purgeOld_self_of_within hall]
        have : (purgeOld window now ts).length + 1 ≤ maxReq := hlt
        simpa using this
      · rw [← h1]; simp
    · simp only [hlt, if_neg, not_false_iff] at h
      exact ih ts h

/-- C1: whenever an `acquire` call (`_check_rate_limit`) returns, the number of
recorded request timestamps lying within the trailing `LOCK_WINDOW_SECONDS`
(60 s) of the admission instant — including the caller's newly appended
timestamp — is at most `MAX_REQUESTS_PER_MIN` (3000), and the caller's
timestamp is recorded; a call that would exceed the limit instead blocks with
`wait = LOCK_WINDOW_SECONDS - (now - oldest_timestamp)` computed from the
purged list, and the loop re-runs the full purge-and-check at the next
instant. -/
theorem rateLimiter_admission_bound (nows ts ts' : List Int) (tAdm : Int)
    (h : acquireLoop MAX_REQUESTS_PER_MIN LOCK_WINDOW_SECONDS nows ts = some (ts', tAdm)) :
    (purgeOld LOCK_WINDOW_SECONDS tAdm ts').length ≤ MAX_REQUESTS_PER_MIN
    ∧ tAdm ∈ ts'
    ∧ (∀ now lst, MAX_REQUESTS_PER_MIN ≤ (purgeOld LOCK_WINDOW_SECONDS now lst).length →
        checkRateLimitStep MAX_REQUESTS_PER_MIN LOCK_WINDOW_SECONDS now lst
          = CheckStep.blocked
              (LOCK_WINDOW_SECONDS - (now - (purgeOld LOCK_WINDOW_SECONDS now lst).headI))) := by
  obtain ⟨h1, h2⟩ := acquireLoop_bound MAX_REQUESTS_PER_MIN LOCK_WINDOW_SECONDS
    (by norm_num [LOCK_WINDOW_SECONDS]) nows ts ts' tAdm h
  refine ⟨h1, h2, ?_⟩
  intro now lst hge
  unfold checkRateLimitStep
  have : ¬ (purgeOld LOCK_WINDOW_SECONDS now lst).length < MAX_REQUESTS_PER_MIN :=
    not_lt.mpr hge
  simp [this]

theorem rateLimiter_admission_bound_witness :
    (purgeOld LOCK_WINDOW_SECONDS 0 [0]).length ≤ MAX_REQUESTS_PER_MIN :=
  (rateLimiter_admission_bound [0] [] [0] 0 (by decide)).1

/- ## Sharing of the rate limiter across workers

backfill.py line 134 executes `fmp = FMPMarketData()` on every call of
`backfill_data`, and `FMPMarketData.__init__` sets
`self.request_timestamps = []` with an instance-level `self._lock`
(fmpMarketData.py lines 56, 72): each per-ticker pipeline therefore owns a
private, freshly initialised limiter state. -/

/-- Embeds the limiter state of the `FMPMarketData` instance freshly
constructed at backfill.py line 134: `request_timestamps = []`. -/
def freshLimiterState : List Int := []

/-- Number of `_check_rate_limit` calls, out of `k` issued back-to-back at
instant `now` against state `ts`, that are admitted without ever blocking. -/
def admittedImmediately (maxReq : Nat) (window now : Int) : Nat → List Int → Nat
  | 0, _ => 0
  | Nat.succ k, ts =>
    match checkRateLimitStep maxReq window now ts with
    | CheckStep.admitted ts' => 1 + admittedImmediately maxReq window now k ts'
    | CheckStep.blocked _ => 0

/-- Total requests admitted at a single instant across a concurrent run in
which each of `workers` per-ticker pipelines issues `callsPerWorker` requests
through its own freshly constructed `FMPMarketData` limiter (the situation
produced by `concurrent_backfill` → `backfill_single_ticker` →
`backfill_data` line 134). -/
def concurrentBackfillTotalAdmitted (workers callsPerWorker : Nat) : Nat :=
  workers * admittedImmediately MAX_REQUESTS_PER_MIN LOCK_WINDOW_SECONDS 0
    callsPerWorker freshLimiterState

theorem admittedImmediately_all_now (maxReq : Nat) (window now : Int) (hw : 0 < window)
    (k : Nat) (ts : List Int) (hts : ∀ t ∈ ts, t = now) :
    admittedImmediately maxReq window now k ts = min k (maxReq - ts.length) := by
  induction k generalizing ts with
  | zero => simp [admittedImmediately]
  | succ k ih =>
    have hpurge : purgeOld window now ts = ts := by
      refine purgeOld_self_of_within ?_
      intro t ht
      rw [hts t ht]
      simpa using hw
    unfold admittedImmediately checkRateLimitStep
    rw [hpurge]
    by_cases hlt : ts.length < maxReq
    · simp only [hlt, if_pos]
      have hts' : ∀ t ∈ ts ++ [now], t = now := by
        intro t ht
        rcases List.mem_append.mp ht with hmem | hmem
        · exact hts t hmem
        · simpa using hmem
      rw [ih (ts ++ [now]) hts']
      simp only [List.length_append, List.length_singleton]
      omega
    · simp only [hlt, if_neg, not_false_iff]
      omega

theorem concurrentBackfillTotalAdmitted_eq (workers callsPerWorker : Nat) :
    concurrentBackfillTotalAdmitted workers callsPerWorker
      = workers * min callsPerWorker MAX_REQUESTS_PER_MIN := by
  unfold concurrentBackfillTotalAdmitted
  rw [admittedImmediately_all_now MAX_REQUESTS_PER_MIN LOCK_WINDOW_SECONDS 0
    (by norm_num [LOCK_WINDOW_SECONDS]) callsPerWorker freshLimiterState
    (by intro t ht; simp [freshLimiterState] at ht)]
  simp [freshLimiterState]

/-- C3 counterexample: with two concurrently running per-ticker pipelines,
each holding the private limiter state constructed at backfill.py line 134,
each pipeline admits its first 3000 requests at instant 0 without blocking,
so 6000 requests are admitted within a single trailing 60-second window —
exceeding `MAX_REQUESTS_PER_MIN = 3000`.  This refutes the claim that all
requests of a concurrent run are admitted through one shared limiter state
bounding the process-wide total by `max_requests`. -/
theorem concurrent_private_limiters_exceed_cap :
    concurrentBackfillTotalAdmitted 2 MAX_REQUESTS_PER_MIN = 6000
    ∧ ¬ (concurrentBackfillTotalAdmitted 2 MAX_REQUESTS_PER_MIN ≤ MAX_REQUESTS_PER_MIN) := by
  rw [concurrentBackfillTotalAdmitted_eq]
  norm_num [MAX_REQUESTS_PER_MIN]

/-- C3 amended: each call of `backfill_data` constructs its own
`FMPMarketData` instance with a private, freshly initialised rate-limiter
state, so concurrently running per-ticker pipelines do not share a limiter;
each pipeline individually admits at most `MAX_REQUESTS_PER_MIN` requests at
one instant, and the process-wide total admitted within a trailing window
reaches `workers * min callsPerWorker MAX_REQUESTS_PER_MIN`. -/
theorem concurrent_limiter_is_per_instance (workers callsPerWorker : Nat) :
    concurrentBackfillTotalAdmitted workers callsPerWorker
      = workers * min callsPerWorker MAX_REQUESTS_PER_MIN
    ∧ admittedImmediately MAX_REQUESTS_PER_MIN LOCK_WINDOW_SECONDS 0 callsPerWorker
        freshLimiterState ≤ MAX_REQUESTS_PER_MIN := by
  constructor
  · exact concurrentBackfillTotalAdmitted_eq workers callsPerWorker
  · rw [admittedImmediately_all_now MAX_REQUESTS_PER_MIN LOCK_WINDOW_SECONDS 0
      (by norm_num [LOCK_WINDOW_SECONDS]) callsPerWorker freshLimiterState
      (by intro t ht; simp [freshLimiterState] at ht)]
    simp [freshLimiterState]

/- ## Resilient request layer: _wait_for_internet and _make_request
(fmpMarketData.py lines 111-211)

External HTTP effects are modelled by per-attempt outcome oracles.  The
exception hierarchy of the `requests` library matters here:
`requests.exceptions.ReadTimeout` is a `Timeout` but NOT a `ConnectionError`,
so the probe `requests.get("https://www.google.com", timeout=5)` inside
`_wait_for_internet` (line 126) can raise an exception that the surrounding
`except requests.exceptions.ConnectionError` (line 131) does not catch. -/

def MAX_RETRIES : Nat := 6

def INTERNET_MAX_WAIT_SECONDS : Int := 120

/-- Outcome of one probe `requests.get("https://www.google.com", timeout=5)`
inside `_wait_for_internet`. -/
inductive ProbeOutcome where
  | ok
  | connError
  | readTimeout
  deriving DecidableEq

/-- Result of `_wait_for_internet`: either a normal return (`True` when the
probe succeeded, `False` when `max_wait_seconds` elapsed while offline) or an
uncaught exception raised by the probe. -/
inductive WaitResult where
  | returned (reconnected : Bool)
  | raisedTimeout
  deriving DecidableEq

/-- Embeds the `while True` loop of `_wait_for_internet` (lines 124-143).
Each stream element is the probe outcome of one iteration paired with the
value of `time.time() - start_time` observed in its `ConnectionError` branch.
Only `ConnectionError` is caught (line 131); an exhausted stream stands for
the offline case where elapsed time eventually reaches the ceiling, so it
returns `False` like the give-up branch. -/
def wait_for_internet (maxWait : Int) : List (ProbeOutcome × Int) → WaitResult
  | [] => WaitResult.returned false
  | (p, elapsed) :: rest =>
    match p with
    | ProbeOutcome.ok => WaitResult.returned true
    | ProbeOutcome.readTimeout => WaitResult.raisedTimeout
    | ProbeOutcome.connError =>
      if maxWait ≤ elapsed then WaitResult.returned false
      else wait_for_internet maxWait rest

/-- Outcome of one `requests.get(url, params, timeout=...)` in
`_make_request` (lines 155-157). -/
inductive HttpOutcome where
  | resp (status : Nat) (body : String)
  | timeoutExc
  | connErrorExc
  | otherReqExc
  deriving DecidableEq

/-- Per-attempt environment of `_make_request`: the HTTP outcome, and the
probe stream consumed by `_wait_for_internet` when the attempt hits the
`ConnectionError` branch. -/
structure AttemptEnv where
  http : HttpOutcome
  probes : List (ProbeOutcome × Int)
  deriving DecidableEq

/-- Result of `_make_request` as observed by its caller: the parsed body of a
200 response, the `None` sentinel after all retries, or an exception escaping
the function. -/
inductive RequestResult where
  | json (body : String)
  | noneSentinel
  | uncaughtTimeout
  deriving DecidableEq

/-- Embeds the `for attempt in range(1, MAX_RETRIES + 1)` loop body of
`_make_request` (lines 150-204): 200 returns the body; any other status
(including 429, which only sleeps longer) falls through to the next attempt;
`Timeout` and `RequestException` are caught, sleep, and retry; a
`ConnectionError` runs `_wait_for_internet` and retries regardless of the
returned flag — but an exception raised inside `_wait_for_internet` occurs in
the `except` handler and propagates out of `_make_request`. -/
def make_request_attempts : List AttemptEnv → RequestResult
  | [] => RequestResult.noneSentinel
  | env :: rest =>
    match env.http with
    | HttpOutcome.resp s body =>
      if s = 200 then RequestResult.json body else make_request_attempts rest
    | HttpOutcome.timeoutExc => make_request_attempts rest
    | HttpOutcome.otherReqExc => make_request_attempts rest
    | HttpOutcome.connErrorExc =>
      match wait_for_internet INTERNET_MAX_WAIT_SECONDS env.probes with
      | WaitResult.returned _ => make_request_attempts rest
      | WaitResult.raisedTimeout => RequestResult.uncaughtTimeout

/-- Embeds `_make_request`: the attempt loop runs `MAX_RETRIES` times and
then falls through to `return None` (line 211). -/
def make_request (envs : List AttemptEnv) : RequestResult :=
  make_request_attempts (envs.take MAX_RETRIES)

/-- Concrete failing run for C2: attempt 1 raises
`requests.exceptions.ConnectionError`, and the connectivity probe inside
`_wait_for_internet` then raises `requests.exceptions.ReadTimeout`; the
remaining attempts would all see HTTP 503. -/
def c2FailingRun : List AttemptEnv :=
  { http := HttpOutcome.connErrorExc, probes := [(ProbeOutcome.readTimeout, 0)] }
    :: List.replicate 5 { http := HttpOutcome.resp 503 "", probes := [] }

/-- C2 evaluated at the failing input: no attempt of the run yields HTTP 200,
yet `_make_request` does not return the `None` sentinel — the probe's
`ReadTimeout`, raised inside `_wait_for_internet` from the `ConnectionError`
handler, escapes to the caller, contradicting the claim that no exception of
any kind propagates.  When no probe exception occurs, exhausting the retries
does return the sentinel (second conjunct, on the run with all 503s). -/
theorem make_request_probe_timeout_escapes :
    make_request c2FailingRun = RequestResult.uncaughtTimeout
    ∧ make_request c2FailingRun ≠ RequestResult.noneSentinel
    ∧ make_request (List.replicate 6 { http := HttpOutcome.resp 503 "", probes := [] })
        = RequestResult.noneSentinel := by
  refine ⟨rfl, by decide, rfl⟩

/- ## Batch planner (backfill.py lines 136-144)

Dates are modelled as the number of days since 1970-01-01, which was a
Thursday, so `(d + 3) % 7 = 0` means Monday.  `pd.bdate_range(start, end)`
is the ascending list of Monday-to-Friday days in the closed interval, and
the grouping comprehension
`[all_dates[i : i + BATCH_DAYS] for i in range(0, len(all_dates), BATCH_DAYS)]`
becomes `groupedDates`. -/

def BATCH_DAYS : Nat := 3

/-- Weekday of an epoch day number, with 0 = Monday .. 6 = Sunday
(1970-01-01 = day 0 was a Thursday). -/
def dayOfWeek (d : Nat) : Nat := (d + 3) % 7

def isBusinessDay (d : Nat) : Bool := dayOfWeek d < 5

/-- Embeds `pd.bdate_range(start=start_date, end=end_date).date`: ascending
business days of `[s, e]`. -/
def bdateRange (s e : Nat) : List Nat :=
  ((List.range (e + 1 - s)).map (fun i => s + i)).filter isBusinessDay

/-- Embeds the grouping comprehension at backfill.py lines 143-144:
`range(0, len(l), b)` has `(l.length + b - 1) / b` elements for stride
`b > 0`, and element `i` is the slice `l[i*b : i*b + b]`. -/
def groupedDates {α : Type} (b : Nat) (l : List α) : List (List α) :=
  (List.range ((l.length + b - 1) / b)).map (fun i => (l.drop (i * b)).take b)

theorem groupedDates_nil {α : Type} (b : Nat) : groupedDates b ([] : List α) = [] := by
  unfold groupedDates
  cases b with
  | zero => simp
  | succ b' => simp [Nat.div_eq_of_lt (Nat.lt_succ_self b')]

theorem groupedDates_cons {α : Type} (b : Nat) (hb : 0 < b) (l : List α) (hl : l ≠ []) :
    groupedDates b l = l.take b :: groupedDates b (l.drop b) := by
  have hn : 1 ≤ l.length := List.length_pos.mpr hl
  have key : (l.length + b - 1) / b = ((l.length - b) + b - 1) / b + 1 := by
    have h1 : l.length + b - 1 = (l.length - 1) + b := by omega
    rw [h1, Nat.add_div_right _ hb]
    congr 1
    rcases Nat.le_total b l.length with hbe | hbe
    · congr 1
      omega
    · have h0 : l.length - b = 0 := by omega
      rw [h0]
      rw [Nat.div_eq_of_lt (by omega : l.length - 1 < b),
        Nat.div_eq_of_lt (by omega : 0 + b - 1 < b)]
  unfold groupedDates
  rw [List.length_drop, key, List.range_succ_eq_map, List.map_cons, List.map_map]
  congr 1
  · simp
  · refine List.map_congr_left ?_
    intro i _
    show (l.drop (Nat.succ i * b)).take b = ((l.drop b).drop (i * b)).take b
    rw [List.drop_drop]
    congr 1
    rw [Nat.succ_mul, Nat.add_comm]

theorem flatten_groupedDates {α : Type} (b : Nat) (hb : 0 < b) (l : List α) :
    (groupedDates b l).flatten = l := by
  cases hl : l with
  | nil => simp [groupedDates_nil]
  | cons x xs =>
    have hrec := flatten_groupedDates b hb ((x :: xs).drop b)
    rw [groupedDates_cons b hb (x :: xs) (by simp), List.flatten_cons, hrec,
      List.take_append_drop]
termination_by l.length
decreasing_by
  simp only [List.length_drop, hl]
  simp
  omega

theorem groupedDates_size (b : Nat) (l c : List Nat) (hc : c ∈ groupedDates b l) :
    c.length ≤ b := by
  unfold groupedDates at hc
  obtain ⟨i, _, rfl⟩ := List.mem_map.mp hc
  exact List.length_take_le b _

theorem bdateRange_mem (s e : Nat) (h : s ≤ e) (d : Nat) :
    d ∈ bdateRange s e ↔ s ≤ d ∧ d ≤ e ∧ isBusinessDay d = true := by
  unfold bdateRange
  simp only [List.mem_filter, List.mem_map, List.mem_range]
  constructor
  · rintro ⟨⟨i, hi, rfl⟩, hbd⟩
    exact ⟨Nat.le_add_right s i, by omega, hbd⟩
  · rintro ⟨h1, h2, h3⟩
    exact ⟨⟨d - s, by omega, by omega⟩, h3⟩

theorem bdateRange_sorted (s e : Nat) :
    List.Pairwise (fun a b => a < b) (bdateRange s e) := by
  unfold bdateRange
  apply List.Pairwise.filter
  rw [List.pairwise_map]
  exact (List.pairwise_lt_range _).imp (fun h => by omega)

/-- C4: for `s ≤ e` (epoch day numbers) the batch planner groups the
ascending business days of `[s, e]` into chunks whose concatenation is
exactly that sequence, each chunk of size at most `BATCH_DAYS = 3`; the
sequence is strictly ascending (so the chunks have no overlaps and no gaps)
and contains exactly the business days of the interval; concretely, for
2024-01-02 (day 19724) through 2024-01-08 (day 19730) the chunks are
[Jan 2, Jan 3, Jan 4] and [Jan 5, Jan 8]. -/
theorem batchPlanner_partition (s e : Nat) (h : s ≤ e) :
    (groupedDates BATCH_DAYS (bdateRange s e)).flatten = bdateRange s e
    ∧ (∀ c ∈ groupedDates BATCH_DAYS (bdateRange s e), c.length ≤ BATCH_DAYS)
    ∧ List.Pairwise (fun a b => a < b) (bdateRange s e)
    ∧ (∀ d, d ∈ bdateRange s e ↔ s ≤ d ∧ d ≤ e ∧ isBusinessDay d = true)
    ∧ groupedDates BATCH_DAYS (bdateRange 19724 19730)
        = [[19724, 19725, 19726], [19727, 19730]] := by
  refine ⟨flatten_groupedDates BATCH_DAYS (by norm_num [BATCH_DAYS]) _,
    fun c hc => groupedDates_size BATCH_DAYS _ c hc,
    bdateRange_sorted s e,
    fun d => bdateRange_mem s e h d,
    by decide⟩

theorem batchPlanner_partition_witness :
    (groupedDates BATCH_DAYS (bdateRange 19724 19730)).flatten = bdateRange 19724 19730 :=
  (batchPlanner_partition 19724 19730 (by norm_num)).1

/- ## Fetch pipeline per-batch retry (backfill.py lines 165-219) -/

/-- BatchSpec from the data model: the date span of one chunk. -/
structure BatchSpec where
  from_date : Nat
  to_date : Nat
  deriving DecidableEq

/-- Outcome of one try of the per-batch `try` block (backfill.py lines
177-212): either an exception is raised, or the try completes with the
fetched chunk (`none` models a falsy or empty `data_chunk`; `success = True`
runs in either case). -/
inductive TryOutcome where
  | exc
  | ok (rows : Option (List String))
  deriving DecidableEq

/-- Observable result of processing one batch. -/
structure BatchRun where
  tries : Nat
  succeeded : Bool
  rows : List String
  sleeps : Nat
  deriving DecidableEq

/-- Embeds the `while attempt < 2 and not success` loop (backfill.py lines
173-219), unrolled: at most two tries; an exception logs, sleeps 1 second
(line 219, also after the second failure) and retries; a completed try sets
`success = True` even when the chunk was empty. -/
def runBatch (oc : Nat → TryOutcome) : BatchRun :=
  match oc 1 with
  | TryOutcome.ok r => { tries := 1, succeeded := true, rows := r.getD [], sleeps := 0 }
  | TryOutcome.exc =>
    match oc 2 with
    | TryOutcome.ok r => { tries := 2, succeeded := true, rows := r.getD [], sleeps := 1 }
    | TryOutcome.exc => { tries := 2, succeeded := false, rows := [], sleeps := 2 }

/-- Embeds the `for date_group in grouped_dates` loop of one ticker: every
batch spec is processed in order, each through its own retry loop, with no
abort path. -/
def runTicker (specs : List BatchSpec) (oc : BatchSpec → Nat → TryOutcome) : List BatchRun :=
  specs.map (fun sp => runBatch (oc sp))

/-- C5: for every ticker run, each batch is attempted at most 2 tries; a
batch whose first try raises sleeps 1 time unit and is retried exactly once;
and regardless of outcomes — including both tries failing — every batch spec
yields a result at its own position, so the remaining batches are still
processed and the run is never aborted by a single batch failure. -/
theorem fetchPipeline_retry_policy (specs : List BatchSpec)
    (oc : BatchSpec → Nat → TryOutcome) :
    (runTicker specs oc).length = specs.length
    ∧ (∀ r ∈ runTicker specs oc, r.tries ≤ 2)
    ∧ (∀ sp ∈ specs, oc sp 1 = TryOutcome.exc →
        (runBatch (oc sp)).tries = 2 ∧ 1 ≤ (runBatch (oc sp)).sleeps)
    ∧ (∀ i : Nat, (runTicker specs oc)[i]?
        = (specs[i]?).map (fun sp => runBatch (oc sp))) := by
  refine ⟨List.length_map .., ?_, ?_, ?_⟩
  · intro r hr
    obtain ⟨sp, _, rfl⟩ := List.mem_map.mp hr
    unfold runBatch
    cases oc sp 1 with
    | ok r => simp
    | exc => cases oc sp 2 <;> simp
  · intro sp _ h1
    unfold runBatch
    rw [h1]
    cases oc sp 2 <;> simp
  · intro i
    unfold runTicker
    exact List.getElem?_map ..

def c5Specs : List BatchSpec := [{ from_date := 19724, to_date := 19726 }, { from_date := 19727, to_date := 19730 }]

def c5Oracle : BatchSpec → Nat → TryOutcome := fun sp _ =>
  if sp.from_date = 19724 then TryOutcome.exc else TryOutcome.ok (some ["bar"])

theorem fetchPipeline_retry_policy_witness :
    (runTicker c5Specs c5Oracle).length = c5Specs.length :=
  (fetchPipeline_retry_policy c5Specs c5Oracle).1

/- ## Universe persistence (fmpMarketData.py lines 330-449,
crypto_tickers.py lines 142-168)

The side-file writes are modelled as traces of file-system operations.
`get_sp500_tickers` (line 389) and `get_commodity_tickers` (line 448) persist
through `_write_json_atomic`; `get_crypto_tickers` (line 421) persists through
`save_crypto_details`, which opens the target path directly for writing. -/

def SP500_TICKERS_PATH : String := "update/extra_tickers/sp500_tickers.json"

def COMMODITY_TICKERS_PATH : String := "update/extra_tickers/commodity_tickers.json"

def CRYPTO_TICKERS_PATH : String := "update/extra_tickers/crypto_tickers.json"

/-- File-system operations performed while persisting a symbol list. -/
inductive FsOp where
  | mkdirParents (dir : String)
  | createTemp (temp : String)
  | writeTemp (temp : String) (content : List String)
  | flushTemp (temp : String)
  | fsyncTemp (temp : String)
  | renameOver (src dst : String)
  | openWriteTarget (path : String) (content : List String)
  deriving DecidableEq

/-- Temporary sibling name used by `_write_json_atomic`
(`tempfile.NamedTemporaryFile` with the dot-name dot plus `.tmp` affixes,
line 334-340; the random infix is irrelevant and omitted). -/
def tempName (target : String) : String := "." ++ target ++ ".tmp"

/-- Embeds the success path of `_write_json_atomic` (lines 333-348): mkdir
parents, create the temp sibling, `json.dump`, `flush`, `os.fsync`, then
`os.replace` over the target. -/
def write_json_atomic_trace (target : String) (tickers : List String) : List FsOp :=
  [FsOp.mkdirParents target,
   FsOp.createTemp (tempName target),
   FsOp.writeTemp (tempName target) tickers,
   FsOp.flushTemp (tempName target),
   FsOp.fsyncTemp (tempName target),
   FsOp.renameOver (tempName target) target]

/-- Embeds the symbol extraction of `save_crypto_details` (crypto_tickers.py
lines 143-147): keep string symbols that are nonblank after stripping.  Each
input record is its `symbol` field, or `none` for a non-dict entry. -/
def extractSymbols (crypto_tickers : List (Option String)) : List String :=
  crypto_tickers.filterMap (fun s? =>
    match s? with
    | some s => if s.trim ≠ "" then some s else none
    | none => none)

/-- Embeds the dedup loop of `save_crypto_details` (lines 150-156): keep the
first occurrence of each symbol. -/
def dedupKeepFirst (seen : List String) : List String → List String
  | [] => []
  | s :: rest =>
    if s ∈ seen then dedupKeepFirst seen rest
    else s :: dedupKeepFirst (s :: seen) rest

/-- Embeds the write of `save_crypto_details` (lines 160-162): `os.makedirs`
then a plain `open(CRYPTO_TICKERS_PATH, "w")` and `json.dump` — a direct
write to the target path, with no temp file, flush/fsync, or rename. -/
def save_crypto_details_trace (crypto_tickers : List (Option String)) : List FsOp :=
  [FsOp.mkdirParents CRYPTO_TICKERS_PATH,
   FsOp.openWriteTarget CRYPTO_TICKERS_PATH
     (dedupKeepFirst [] (extractSymbols crypto_tickers))]

/-- Persist step of `get_sp500_tickers` (fmpMarketData.py line 389). -/
def sp500_persist_trace (tickers : List String) : List FsOp :=
  write_json_atomic_trace SP500_TICKERS_PATH tickers

/-- Persist step of `get_commodity_tickers` (fmpMarketData.py line 448). -/
def commodity_persist_trace (tickers : List String) : List FsOp :=
  write_json_atomic_trace COMMODITY_TICKERS_PATH tickers

/-- Persist step of `get_crypto_tickers` (fmpMarketData.py line 421). -/
def crypto_persist_trace (fmp_tickers : List (Option String)) : List FsOp :=
  save_crypto_details_trace fmp_tickers

/-- Modelled from the spec's atomicity sentence: a persist sequence counts as
atomic when it renames something over the target, both flushes and fsyncs a
temp file beforehand, and never opens the target path itself for direct
writing (so no partially written list is ever visible at the target). -/
def isAtomicPersist (target : String) (ops : List FsOp) : Bool :=
  (ops.any (fun op =>
    match op with
    | FsOp.renameOver _ dst => dst = target
    | _ => false))
  && (ops.any (fun op =>
    match op with
    | FsOp.flushTemp _ => true
    | _ => false))
  && (ops.any (fun op =>
    match op with
    | FsOp.fsyncTemp _ => true
    | _ => false))
  && (ops.all (fun op =>
    match op with
    | FsOp.openWriteTarget p _ => decide (p ≠ target)
    | _ => true))

theorem write_json_atomic_trace_atomic (target : String) (tickers : List String) :
    isAtomicPersist target (write_json_atomic_trace target tickers) = true := by
  simp [isAtomicPersist, write_json_atomic_trace]

/-- C6 counterexample: the crypto universe fetch persists its symbol list via
`save_crypto_details`, which writes directly to the target path with no
temp-file/flush/fsync/rename sequence — refuting the claim that every
universe fetch persists atomically; a crash mid-write can leave a partially
written crypto list visible at the target. -/
theorem crypto_persist_not_atomic :
    isAtomicPersist CRYPTO_TICKERS_PATH (crypto_persist_trace [some "BTCUSD"]) = false := by
  simp [isAtomicPersist, crypto_persist_trace, save_crypto_details_trace]

/-- C6 amended: the S&P 500 and commodity universe fetches persist their
symbol lists through the atomic write-temp/flush/fsync/rename sequence of
`_write_json_atomic`, but the crypto universe fetch persists through
`save_crypto_details`, which performs a plain direct write to the target
path. -/
theorem universe_persist_atomicity (tickers : List String)
    (fmp_tickers : List (Option String)) :
    isAtomicPersist SP500_TICKERS_PATH (sp500_persist_trace tickers) = true
    ∧ isAtomicPersist COMMODITY_TICKERS_PATH (commodity_persist_trace tickers) = true
    ∧ isAtomicPersist CRYPTO_TICKERS_PATH (crypto_persist_trace fmp_tickers) = false := by
  refine ⟨write_json_atomic_trace_atomic .., write_json_atomic_trace_atomic .., ?_⟩
  simp [isAtomicPersist, crypto_persist_trace, save_crypto_details_trace]

/- ## Concurrent orchestrator (concurrent_backfill.py lines 26-27, 59-209)

The run is modelled by the trace of messages it prints plus the value the
caller receives.  Worker effects (fetch, connection pool, insert) are
oracles per ticker. -/

def MAX_WORKERS : Nat := 8

/-- Per-worker message printed by `backfill_single_ticker`
(concurrent_backfill.py lines 89-140). -/
inductive WorkerMsg where
  | noData
  | noConnection
  | inserted (n : Nat)
  | dryRunPrepared (n : Nat)
  | noValidRows
  | errorCaught
  deriving DecidableEq

/-- Oracle for one worker: the DataFrame returned by `backfill_data`
(`none` for a missing/empty frame, each row `some r` when the tuple build at
lines 100-113 parses and `none` when it raises and the row is skipped),
whether `get_connection` yields a connection, and whether the body raises an
exception (caught at line 139). -/
structure WorkerEnv where
  df : Option (List (Option String))
  connOk : Bool
  raises : Bool
  deriving DecidableEq

/-- Embeds `backfill_single_ticker` (lines 59-144): empty or missing frame
prints the no-data message; a failed pool borrow prints and returns; parse
failures skip their row; a nonempty prepared batch is bulk-inserted (or only
counted on dry runs); any exception is caught at the worker boundary and
printed; the connection is released in the `finally` block in every case. -/
def backfill_single_ticker_msg (env : WorkerEnv) (dryRun : Bool) : WorkerMsg :=
  if env.raises then WorkerMsg.errorCaught
  else
    match env.df with
    | none => WorkerMsg.noData
    | some rows =>
      if rows = [] then WorkerMsg.noData
      else if env.connOk = false then WorkerMsg.noConnection
      else
        let insert_data := rows.filterMap id
        if insert_data ≠ [] ∧ dryRun = false then WorkerMsg.inserted insert_data.length
        else if dryRun then WorkerMsg.dryRunPrepared insert_data.length
        else WorkerMsg.noValidRows

/-- Messages printed by `concurrent_backfill` itself plus the per-worker
messages. -/
inductive RunMsg where
  | startBanner (tickerCount : Nat)
  | dateRangeLine
  | threadsLine (threads : Nat)
  | worker (ticker : String) (msg : WorkerMsg)
  | closingPool
  deriving DecidableEq

/-- Aggregate statistics named by the specification (total inserted rows,
total skipped rows, ticker count, wall-clock elapsed). -/
structure AggregateStats where
  totalInserted : Nat
  totalSkipped : Nat
  tickerCount : Nat
  elapsedSeconds : Nat
  deriving DecidableEq

/-- Embeds `concurrent_backfill` (lines 147-209): print the three header
lines, run one `backfill_single_ticker` per ticker, and close the pool in the
`finally` block.  The Python body has no `return` statement and performs no
validation of `threads`, so the function proceeds for every thread count and
the caller receives `None` — modelled as the `Option AggregateStats`
component being `none`. -/
def concurrent_backfill_run (tickers : List String) (threads : Nat) (dryRun : Bool)
    (env : String → WorkerEnv) : List RunMsg × Option AggregateStats :=
  ([RunMsg.startBanner tickers.length, RunMsg.dateRangeLine, RunMsg.threadsLine threads]
     ++ tickers.map (fun t => RunMsg.worker t (backfill_single_ticker_msg (env t) dryRun))
     ++ [RunMsg.closingPool],
   none)

/-- Sample worker oracle: AAPL fetches two parseable rows and inserts them;
every other ticker raises inside its worker. -/
def sampleWorkerEnv : String → WorkerEnv := fun t =>
  if t = "AAPL" then { df := some [some "r1", some "r2"], connOk := true, raises := false }
  else { df := some [some "x"], connOk := true, raises := true }

/-- C7 counterexample: a completed concurrent run over two tickers — one
inserting 2 rows, one failing entirely — returns `none` to the caller and
prints only the header lines, the per-ticker messages, and the fixed
closing-pool line: no total inserted rows, no total skipped rows, no
aggregate ticker count, and no wall-clock elapsed time are computed or
reported, refuting the claim that every completed run reports aggregate
statistics. -/
theorem concurrent_backfill_returns_no_stats :
    (concurrent_backfill_run ["AAPL", "MSFT"] MAX_WORKERS false sampleWorkerEnv).2 = none
    ∧ (concurrent_backfill_run ["AAPL", "MSFT"] MAX_WORKERS false sampleWorkerEnv).1
        = [RunMsg.startBanner 2, RunMsg.dateRangeLine, RunMsg.threadsLine 8,
           RunMsg.worker "AAPL" (WorkerMsg.inserted 2),
           RunMsg.worker "MSFT" WorkerMsg.errorCaught,
           RunMsg.closingPool] := by
  exact ⟨rfl, by decide⟩

/-- C7 amended: `concurrent_backfill` always runs to completion — the trace
ends with the closing-pool message and starts with the banner naming the
ticker count — but it returns `None` to the caller: per-ticker insert counts
are only printed by each worker, and no aggregate inserted/skipped totals or
elapsed time exist anywhere in the run. -/
theorem concurrent_backfill_reporting (tickers : List String) (threads : Nat)
    (dryRun : Bool) (env : String → WorkerEnv) :
    (concurrent_backfill_run tickers threads dryRun env).2 = none
    ∧ (concurrent_backfill_run tickers threads dryRun env).1.getLast?
        = some RunMsg.closingPool
    ∧ (concurrent_backfill_run tickers threads dryRun env).1.head?
        = some (RunMsg.startBanner tickers.length) := by
  refine ⟨rfl, ?_, rfl⟩
  unfold concurrent_backfill_run
  dsimp only
  rw [List.getLast?_concat]

def c7WitnessThreads : Nat := MAX_WORKERS

theorem concurrent_backfill_reporting_witness :
    (concurrent_backfill_run ["AAPL"] c7WitnessThreads false sampleWorkerEnv).2 = none :=
  (concurrent_backfill_reporting ["AAPL"] c7WitnessThreads false sampleWorkerEnv).1

/-- C8 counterexample: invoked with `threads = 100`, far above
`MAX_WORKERS = 8` (the value whose source comment demands it stay below the
connection-pool capacity) and above any such capacity bound, the run does not
fail at construction: it proceeds through the worker submissions and
completes, closing the pool at the end — there is no constructor-time (or
any) check of the worker count against the pool's max-connections setting. -/
theorem worker_count_not_validated :
    (concurrent_backfill_run ["AAPL"] 100 false sampleWorkerEnv).1.getLast?
        = some RunMsg.closingPool
    ∧ (concurrent_backfill_run ["AAPL"] 100 false sampleWorkerEnv).1
        = [RunMsg.startBanner 1, RunMsg.dateRangeLine, RunMsg.threadsLine 100,
           RunMsg.worker "AAPL" (WorkerMsg.inserted 2), RunMsg.closingPool]
    ∧ MAX_WORKERS < 100 := by
  refine ⟨?_, by decide, by norm_num [MAX_WORKERS]⟩
  rw [(by decide :
    (concurrent_backfill_run ["AAPL"] 100 false sampleWorkerEnv).1
      = [RunMsg.startBanner 1, RunMsg.dateRangeLine, RunMsg.threadsLine 100,
         RunMsg.worker "AAPL" (WorkerMsg.inserted 2), RunMsg.closingPool])]
  rfl

/-- C8 amended: the `worker_count < pool max-connections` constraint exists
only as the source comment attached to `MAX_WORKERS = 8`
(concurrent_backfill.py lines 26-27); `concurrent_backfill` performs no
constructor-time or runtime validation of its `threads` argument, and for
every thread count the run proceeds and completes with the pool closed. -/
theorem concurrent_backfill_accepts_any_thread_count (tickers : List String)
    (threads : Nat) (dryRun : Bool) (env : String → WorkerEnv) :
    RunMsg.threadsLine threads ∈ (concurrent_backfill_run tickers threads dryRun env).1
    ∧ (concurrent_backfill_run tickers threads dryRun env).1.getLast?
        = some RunMsg.closingPool := by
  constructor
  · unfold concurrent_backfill_run
    simp
  · unfold concurrent_backfill_run
    dsimp only
    rw [List.getLast?_concat]

/- ## File-system model and _write_json_atomic failure behavior
(fmpMarketData.py lines 330-449) -/

/-- Flat file system: association list from path to file content. -/
abbrev Fs := List (String × List String)

def fsGet : Fs → String → Option (List String)
  | [], _ => none
  | (p, c) :: rest, q => if p = q then some c else fsGet rest q

def fsRemove (fs : Fs) (p : String) : Fs :=
  fs.filter (fun e => e.1 ≠ p)

def fsSet (fs : Fs) (p : String) (c : List String) : Fs :=
  (p, c) :: fsRemove fs p

theorem fsGet_remove_eq (fs : Fs) (p : String) : fsGet (fsRemove fs p) p = none := by
  induction fs with
  | nil => rfl
  | cons e rest ih =>
    rcases e with ⟨p1, c1⟩
    by_cases he : p1 = p
    · simpa [fsRemove, List.filter_cons, he] using ih
    · simpa [fsRemove, List.filter_cons, he, fsGet] using ih

theorem fsGet_remove_ne (fs : Fs) (p q : String) (h : q ≠ p) :
    fsGet (fsRemove fs p) q = fsGet fs q := by
  have hpq : p ≠ q := fun hh => h hh.symm
  induction fs with
  | nil => rfl
  | cons e rest ih =>
    rcases e with ⟨p1, c1⟩
    by_cases he : p1 = p
    · simpa [fsRemove, List.filter_cons, he, fsGet, hpq] using ih
    · by_cases hq : p1 = q
      · simp [fsRemove, List.filter_cons, he, fsGet, hq, h, ih]
      · simpa [fsRemove, List.filter_cons, he, fsGet, hq] using ih

theorem fsGet_set_eq (fs : Fs) (p : String) (c : List String) :
    fsGet (fsSet fs p c) p = some c := by
  simp [fsSet, fsGet]

theorem fsGet_set_ne (fs : Fs) (p q : String) (c : List String) (h : q ≠ p) :
    fsGet (fsSet fs p c) q = fsGet fs q := by
  have hpq : p ≠ q := fun hq => h hq.symm
  have h1 : fsGet (fsSet fs p c) q = fsGet (fsRemove fs p) q := by
    simp [fsSet, fsGet, hpq]
  rw [h1]
  exact fsGet_remove_ne fs p q h

theorem tempName_ne (t : String) : tempName t ≠ t := by
  intro h
  have hlen := congrArg String.length h
  unfold tempName at hlen
  rw [String.length_append, String.length_append] at hlen
  have h1 : (".").length = 1 := by decide
  have h2 : (".tmp").length = 4 := by decide
  omega

/-- Injection point of the `(OSError, IOError)` caught by
`_write_json_atomic`; `success` means no operation fails. -/
inductive FailPoint where
  | success
  | atMkdir
  | atDump
  | atFlush
  | atFsync
  | atReplace
  deriving DecidableEq

/-- Embeds `_write_json_atomic` (fmpMarketData.py lines 330-363) with an
explicit failure-injection point, returning the Python return value and the
resulting file system.  `temp_path` is assigned only after `os.fsync`
(line 345), so for failures at `json.dump`, `flush` or `os.fsync` the
`except` block's `if temp_path and temp_path.exists()` test sees `None` and
the already-created temp file is not unlinked; for a failure at `os.replace`
the unlink runs, and `unlinkOk = false` models its own swallowed `OSError`
(lines 358-362). -/
def write_json_atomic (fs : Fs) (target : String) (tickers : List String)
    (fp : FailPoint) (unlinkOk : Bool) : Bool × Fs :=
  if fp = FailPoint.atMkdir then (false, fs)
  else
    let temp := tempName target
    let fs1 := fsSet fs temp []
    if fp = FailPoint.atDump then (false, fs1)
    else
      let fs2 := fsSet fs1 temp tickers
      if fp = FailPoint.atFlush then (false, fs2)
      else if fp = FailPoint.atFsync then (false, fs2)
      else if fp = FailPoint.atReplace then
        if unlinkOk then (false, fsRemove fs2 temp) else (false, fs2)
      else
        (true, fsSet (fsRemove fs2 temp) target tickers)

/-- Embeds `get_sp500_tickers` (fmpMarketData.py lines 365-390): `data` is
the decoded `_make_request` payload (`none` for a falsy result, each item its
`symbol` field when present as a string); the `_write_json_atomic` return
value is ignored and the ticker list returned regardless. -/
def get_sp500_tickers (fs : Fs) (data : Option (List (Option String)))
    (fp : FailPoint) (unlinkOk : Bool) : List String × Fs :=
  match data with
  | none => ([], fs)
  | some items =>
    let tickers := extractSymbols items
    if tickers = [] then ([], fs)
    else ((tickers, (write_json_atomic fs SP500_TICKERS_PATH tickers fp unlinkOk).2))

/-- Embeds `get_commodity_tickers` (fmpMarketData.py lines 424-449), same
shape as `get_sp500_tickers` with its own target path. -/
def get_commodity_tickers (fs : Fs) (data : Option (List (Option String)))
    (fp : FailPoint) (unlinkOk : Bool) : List String × Fs :=
  match data with
  | none => ([], fs)
  | some items =>
    let tickers := extractSymbols items
    if tickers = [] then ([], fs)
    else ((tickers, (write_json_atomic fs COMMODITY_TICKERS_PATH tickers fp unlinkOk).2))

def c9Fs : Fs := [(SP500_TICKERS_PATH, ["OLD"])]

/-- C9 counterexample: when `json.dump` raises an I/O error,
`_write_json_atomic` does return `False` and leaves the target untouched,
but the temporary file it created is NOT removed: `temp_path` is still
`None` at that point (it is assigned only after `os.fsync`), so the cleanup
test skips the unlink and the temp file stays on disk — refuting the claim
that the temporary file (if any) is removed on every I/O failure. -/
theorem write_json_atomic_temp_leak :
    (write_json_atomic c9Fs SP500_TICKERS_PATH ["AAPL"] FailPoint.atDump true).1 = false
    ∧ fsGet (write_json_atomic c9Fs SP500_TICKERS_PATH ["AAPL"] FailPoint.atDump true).2
        (tempName SP500_TICKERS_PATH) = some []
    ∧ fsGet (write_json_atomic c9Fs SP500_TICKERS_PATH ["AAPL"] FailPoint.atDump true).2
        SP500_TICKERS_PATH = some ["OLD"] := by
  refine ⟨rfl, by decide, by decide⟩

/-- C9 amended: every failing `_write_json_atomic` call returns `False` and
leaves the target file's contents unchanged, and `get_sp500_tickers` and
`get_commodity_tickers` return their fetched ticker lists unchanged when the
side-file write fails; but the temp file is removed only when the failure
strikes at the final rename (and its unlink succeeds) — failures during
dump, flush or fsync leave the created temp file behind, because `temp_path`
is assigned only after `os.fsync`. -/
theorem write_json_atomic_failure_contained (fs : Fs) (target : String)
    (tickers : List String) (fp : FailPoint) (unlinkOk : Bool)
    (hfp : fp ≠ FailPoint.success) :
    (write_json_atomic fs target tickers fp unlinkOk).1 = false
    ∧ fsGet (write_json_atomic fs target tickers fp unlinkOk).2 target = fsGet fs target
    ∧ (fp = FailPoint.atDump ∨ fp = FailPoint.atFlush ∨ fp = FailPoint.atFsync →
        (fsGet (write_json_atomic fs target tickers fp unlinkOk).2
          (tempName target)).isSome = true)
    ∧ (fp = FailPoint.atReplace → unlinkOk = true →
        fsGet (write_json_atomic fs target tickers fp unlinkOk).2 (tempName target) = none)
    ∧ (∀ data, (get_sp500_tickers fs data fp unlinkOk).1
        = (get_sp500_tickers fs data FailPoint.success unlinkOk).1)
    ∧ (∀ data, (get_commodity_tickers fs data fp unlinkOk).1
        = (get_commodity_tickers fs data FailPoint.success unlinkOk).1) := by
  have hne := tempName_ne target
  have hne' : target ≠ tempName target := fun h => hne h.symm
  refine ⟨?_, ?_, ?_, ?_, ?_, ?_⟩
  · cases fp <;> cases unlinkOk <;> simp_all [write_json_atomic]
  · cases fp with
    | success => exact absurd rfl hfp
    | atMkdir => rfl
    | atDump =>
      show fsGet (fsSet fs (tempName target) []) target = fsGet fs target
      exact fsGet_set_ne fs (tempName target) target [] hne'
    | atFlush =>
      show fsGet (fsSet (fsSet fs (tempName target) []) (tempName target) tickers) target
          = fsGet fs target
      rw [fsGet_set_ne _ _ _ _ hne', fsGet_set_ne _ _ _ _ hne']
    | atFsync =>
      show fsGet (fsSet (fsSet fs (tempName target) []) (tempName target) tickers) target
          = fsGet fs target
      rw [fsGet_set_ne _ _ _ _ hne', fsGet_set_ne _ _ _ _ hne']
    | atReplace =>
      cases unlinkOk with
      | true =>
        show fsGet (fsRemove (fsSet (fsSet fs (tempName target) []) (tempName target) tickers)
            (tempName target)) target = fsGet fs target
        rw [fsGet_remove_ne _ _ _ hne', fsGet_set_ne _ _ _ _ hne',
          fsGet_set_ne _ _ _ _ hne']
      | false =>
        show fsGet (fsSet (fsSet fs (tempName target) []) (tempName target) tickers) target
            = fsGet fs target
        rw [fsGet_set_ne _ _ _ _ hne', fsGet_set_ne _ _ _ _ hne']
  · intro hcase
    rcases hcase with h | h | h <;> subst h
    · show (fsGet (fsSet fs (tempName target) []) (tempName target)).isSome = true
      rw [fsGet_set_eq]
      rfl
    · show (fsGet (fsSet (fsSet fs (tempName target) []) (tempName target) tickers)
        (tempName target)).isSome = true
      rw [fsGet_set_eq]
      rfl
    · show (fsGet (fsSet (fsSet fs (tempName target) []) (tempName target) tickers)
        (tempName target)).isSome = true
      rw [fsGet_set_eq]
      rfl
  · intro hfp2 hu
    subst hfp2
    subst hu
    show fsGet (fsRemove (fsSet (fsSet fs (tempName target) []) (tempName target) tickers)
        (tempName target)) (tempName target) = none
    exact fsGet_remove_eq ..
  · intro data
    cases data with
    | none => rfl
    | some items =>
      show (if extractSymbols items = [] then (([] : List String), fs)
          else ((extractSymbols items,
            (write_json_atomic fs SP500_TICKERS_PATH (extractSymbols items) fp unlinkOk).2))).1
        = (if extractSymbols items = [] then (([] : List String), fs)
          else ((extractSymbols items,
            (write_json_atomic fs SP500_TICKERS_PATH (extractSymbols items)
              FailPoint.success unlinkOk).2))).1
      by_cases hsym : extractSymbols items = [] <;> simp [hsym]
  · intro data
    cases data with
    | none => rfl
    | some items =>
      show (if extractSymbols items = [] then (([] : List String), fs)
          else ((extractSymbols items,
            (write_json_atomic fs COMMODITY_TICKERS_PATH (extractSymbols items) fp unlinkOk).2))).1
        = (if extractSymbols items = [] then (([] : List String), fs)
          else ((extractSymbols items,
            (write_json_atomic fs COMMODITY_TICKERS_PATH (extractSymbols items)
              FailPoint.success unlinkOk).2))).1
      by_cases hsym : extractSymbols items = [] <;> simp [hsym]

theorem write_json_atomic_failure_contained_witness :
    (write_json_atomic c9Fs SP500_TICKERS_PATH ["AAPL"] FailPoint.atReplace true).1 = false :=
  (write_json_atomic_failure_contained c9Fs SP500_TICKERS_PATH ["AAPL"]
    FailPoint.atReplace true (by decide)).1

/- ## backfill_data output-file behavior (backfill.py lines 45-71, 102-239) -/

def TEMP_DIR : String := "data/backfill_cache"

/-- Embeds `generate_output_filename` (backfill.py lines 45-71).  The
YYYYMMDD rendering of the two dates is modelled as the decimal rendering of
the epoch day numbers; a `none` filename never reaches this function. -/
def generate_output_filename (tickers : List String) (s e : Nat) (interval : Nat)
    (exchange : Option String) (output_filename : String) : String :=
  let name :=
    if output_filename = "" ∨ output_filename = "backfilled_data.csv" then
      let ticker_str := if tickers.length = 1 then tickers.headI else "multiple_tickers"
      let date_range_str := toString s ++ "_" ++ toString e
      let interval_str := toString interval ++ "min"
      let exchange_str :=
        match exchange with
        | some ex => ex.toLower
        | none => "nasdaq"
      "backfill_" ++ ticker_str ++ "_" ++ date_range_str ++ "_" ++ interval_str
        ++ "_" ++ exchange_str ++ ".csv"
    else output_filename
  TEMP_DIR ++ "/" ++ name

/-- Header row written on the first append, in the `prepare_data` column
order (backfill.py lines 88-97). -/
def csvHeader : String := "ticker,date,datetime,open,high,low,close,volume"

/-- Embeds `df_chunk.to_csv(output_path, mode="a", header=not
os.path.exists(output_path))` (backfill.py lines 200-206). -/
def csvAppend (fs : Fs) (path : String) (rows : List String) : Fs :=
  match fsGet fs path with
  | none => fsSet fs path (csvHeader :: rows)
  | some content => fsSet fs path (content ++ rows)

/-- Work items of the nested ticker and date-group loops (backfill.py lines
163-165), linearized in execution order. -/
def pairsOf (tickers : List String) (groups : List (List Nat)) :
    List (String × List Nat) :=
  (tickers.map (fun t => groups.map (fun g => (t, g)))).flatten

/-- Embeds one iteration of the batch loop after the retry loop resolved
(backfill.py lines 191-206): a nonempty chunk is kept in the in-memory
accumulator and, when an output path is set, appended to the CSV; an empty
or missing chunk only logs. -/
def backfillStep (oc : String → List Nat → Nat → TryOutcome) (pathOpt : Option String)
    (item : String × List Nat) (acc : Fs × List String) : Fs × List String :=
  let r := runBatch (oc item.1 item.2)
  if r.rows = [] then acc
  else
    match pathOpt with
    | some path => (csvAppend acc.1 path r.rows, acc.2 ++ r.rows)
    | none => (acc.1, acc.2 ++ r.rows)

def backfillLoop (oc : String → List Nat → Nat → TryOutcome) (pathOpt : Option String) :
    List (String × List Nat) → Fs × List String → Fs × List String
  | [], acc => acc
  | item :: rest, acc => backfillLoop oc pathOpt rest (backfillStep oc pathOpt item acc)

/-- Rows fetched during this run, in loop order. -/
def collectRows (oc : String → List Nat → Nat → TryOutcome) :
    List (String × List Nat) → List String
  | [] => []
  | item :: rest => (runBatch (oc item.1 item.2)).rows ++ collectRows oc rest

/-- Content the output CSV holds once exactly `rows` have been appended to a
previously absent file. -/
def csvContent (rows : List String) : Option (List String) :=
  if rows = [] then none else some (csvHeader :: rows)

/-- Embeds `backfill_data` (backfill.py lines 102-239) over the file-system
model.  The business days are computed first and an empty range returns
immediately (line 140) BEFORE the output path is resolved and any existing
file removed (lines 150-156); otherwise the existing file is removed and the
ticker/date-group loops run.  The second component is the value returned to
the caller: the combined rows when `output_filename` is `none`, else the
Python `None`. -/
def backfill_data_fs (fs : Fs) (tickers : List String) (s e : Nat) (interval : Nat)
    (exchange : Option String) (output_filename : Option String)
    (oc : String → List Nat → Nat → TryOutcome) : Fs × Option (List String) :=
  let all_dates := bdateRange s e
  if all_dates = [] then
    (fs, if output_filename.isNone then some [] else none)
  else
    let grouped := groupedDates BATCH_DAYS all_dates
    match output_filename with
    | some name =>
      let path := generate_output_filename tickers s e interval exchange name
      let fs1 := fsRemove fs path
      ((backfillLoop oc (some path) (pairsOf tickers grouped) (fs1, [])).1, none)
    | none =>
      ((backfillLoop oc none (pairsOf tickers grouped) (fs, [])).1,
       some (backfillLoop oc none (pairsOf tickers grouped) (fs, [])).2)

theorem csvAppend_content (fs : Fs) (path : String) (rows got : List String)
    (hrows : rows ≠ []) (hg : fsGet fs path = csvContent got) :
    fsGet (csvAppend fs path rows) path = csvContent (got ++ rows) := by
  by_cases hgot : got = []
  · subst hgot
    have hnone : fsGet fs path = none := by simpa [csvContent] using hg
    unfold csvAppend
    rw [hnone]
    show fsGet (fsSet fs path (csvHeader :: rows)) path = csvContent ([] ++ rows)
    rw [fsGet_set_eq]
    simp [csvContent, hrows]
  · have hsome : fsGet fs path = some (csvHeader :: got) := by
      simpa [csvContent, hgot] using hg
    unfold csvAppend
    rw [hsome]
    show fsGet (fsSet fs path ((csvHeader :: got) ++ rows)) path = csvContent (got ++ rows)
    rw [fsGet_set_eq]
    simp [csvContent, hgot]

theorem csvAppend_frame (fs : Fs) (path : String) (rows : List String) (q : String)
    (hq : q ≠ path) : fsGet (csvAppend fs path rows) q = fsGet fs q := by
  unfold csvAppend
  cases hc : fsGet fs path with
  | none => exact fsGet_set_ne fs path q _ hq
  | some c => exact fsGet_set_ne fs path q _ hq

theorem backfillLoop_path_content (oc : String → List Nat → Nat → TryOutcome)
    (path : String) (items : List (String × List Nat)) :
    ∀ (fs : Fs) (got acc2 : List String), fsGet fs path = csvContent got →
      fsGet (backfillLoop oc (some path) items (fs, acc2)).1 path
        = csvContent (got ++ collectRows oc items) := by
  induction items with
  | nil =>
    intro fs got acc2 hg
    simpa [backfillLoop, collectRows] using hg
  | cons item rest ih =>
    intro fs got acc2 hg
    unfold backfillLoop backfillStep collectRows
    by_cases hr : (runBatch (oc item.1 item.2)).rows = []
    · simp only [hr, if_pos]
      rw [ih fs got acc2 hg]
      simp
    · simp only [hr, if_neg, not_false_iff]
      rw [ih (csvAppend fs path (runBatch (oc item.1 item.2)).rows)
        (got ++ (runBatch (oc item.1 item.2)).rows) _
        (csvAppend_content fs path _ got hr hg)]
      rw [List.append_assoc]

theorem backfillLoop_frame (oc : String → List Nat → Nat → TryOutcome)
    (path : String) (items : List (String × List Nat)) :
    ∀ (fs : Fs) (acc2 : List String) (q : String), q ≠ path →
      fsGet (backfillLoop oc (some path) items (fs, acc2)).1 q = fsGet fs q := by
  induction items with
  | nil =>
    intro fs acc2 q hq
    rfl
  | cons item rest ih =>
    intro fs acc2 q hq
    unfold backfillLoop backfillStep
    by_cases hr : (runBatch (oc item.1 item.2)).rows = []
    · simp only [hr, if_pos]
      exact ih fs acc2 q hq
    · simp only [hr, if_neg, not_false_iff]
      rw [ih _ _ q hq]
      exact csvAppend_frame fs path _ q hq

def c10Oc : String → List Nat → Nat → TryOutcome := fun _ _ _ => TryOutcome.ok none

def c10Path : String := generate_output_filename ["AAPL"] 19728 19728 1 none "stale.csv"

def c10Fs : Fs := [(c10Path, [csvHeader, "old_row"])]

/-- C10 counterexample: day 19728 is Saturday 2024-01-06, so the range has
no business days and `backfill_data` returns at line 140 — BEFORE the
deletion at lines 155-156 — leaving the pre-existing file at the resolved
output path untouched, with its rows from an earlier run still visible;
this refutes the claim that every call with a non-None `output_filename`
deletes an existing file at the resolved path before returning. -/
theorem backfill_no_delete_on_empty_range :
    (backfill_data_fs c10Fs ["AAPL"] 19728 19728 1 none (some "stale.csv") c10Oc).1 = c10Fs
    ∧ fsGet (backfill_data_fs c10Fs ["AAPL"] 19728 19728 1 none
        (some "stale.csv") c10Oc).1 c10Path = some [csvHeader, "old_row"] := by
  constructor
  · rfl
  · decide

/-- C10 amended: when the requested range contains at least one business
day, a call of `backfill_data` with a non-None `output_filename` first
deletes any existing file at the resolved output path, so the final CSV
content is exactly the header plus the rows fetched during this run
(independent of any earlier content), no other file in the cache directory
is modified, and the function returns `None`; when the range has no business
days, the function returns early and an existing file at the resolved path
is left untouched. -/
theorem backfill_output_only_run_rows (fs : Fs) (tickers : List String)
    (s e interval : Nat) (exchange : Option String) (name : String)
    (oc : String → List Nat → Nat → TryOutcome)
    (hbd : bdateRange s e ≠ []) :
    fsGet (backfill_data_fs fs tickers s e interval exchange (some name) oc).1
        (generate_output_filename tickers s e interval exchange name)
      = csvContent (collectRows oc (pairsOf tickers (groupedDates BATCH_DAYS (bdateRange s e))))
    ∧ (∀ q, q ≠ generate_output_filename tickers s e interval exchange name →
        fsGet (backfill_data_fs fs tickers s e interval exchange (some name) oc).1 q
          = fsGet fs q)
    ∧ (backfill_data_fs fs tickers s e interval exchange (some name) oc).2 = none := by
  unfold backfill_data_fs
  dsimp only
  rw [if_neg hbd]
  refine ⟨?_, ?_, rfl⟩
  · have h0 : fsGet (fsRemove fs (generate_output_filename tickers s e interval exchange name))
        (generate_output_filename tickers s e interval exchange name)
        = csvContent [] := by
      rw [fsGet_remove_eq]
      rfl
    simpa using backfillLoop_path_content oc
      (generate_output_filename tickers s e interval exchange name)
      (pairsOf tickers (groupedDates BATCH_DAYS (bdateRange s e)))
      (fsRemove fs (generate_output_filename tickers s e interval exchange name))
      [] [] h0
  · intro q hq
    rw [backfillLoop_frame oc
      (generate_output_filename tickers s e interval exchange name)
      (pairsOf tickers (groupedDates BATCH_DAYS (bdateRange s e)))
      (fsRemove fs (generate_output_filename tickers s e interval exchange name))
      [] q hq]
    exact fsGet_remove_ne fs _ q hq

def c10wOc : String → List Nat → Nat → TryOutcome := fun _ _ _ => TryOutcome.ok (some ["row_new"])

theorem backfill_output_only_run_rows_witness :
    fsGet (backfill_data_fs c10Fs ["AAPL"] 19724 19724 1 none (some "stale.csv") c10wOc).1
        (generate_output_filename ["AAPL"] 19724 19724 1 none "stale.csv")
      = csvContent (collectRows c10wOc
          (pairsOf ["AAPL"] (groupedDates BATCH_DAYS (bdateRange 19724 19724)))) :=
  (backfill_output_only_run_rows c10Fs ["AAPL"] 19724 19724 1 none "stale.csv" c10wOc
    (by decide)).1

end MQS
